import Mathlib

/-!
# Shallow embedding of `FreecellGame.class.js`

The single source file defines a `FreecellGame` class holding three pile
collections (`foundation`, `open`, `cascade`), each an ordered array of
card arrays, together with the move predicate `isValidMove`, the mutator
`executeMove`, the auto-move heuristic `attemptAutoMove` and the helpers
`getValidFoundation`, `getFirstAvailableOpen`, `isBuild`, `_numCanMove`
and `_isStackable`, plus the deck builder `getDeck`.

Modelling decisions, shared by all definitions below:

* A JavaScript array slot can hold a `Card` object or the value
  `undefined` (for example `[].pop()` returns `undefined`, and pushing
  that value stores it).  A slot is therefore `Entry := Option Card`,
  with `none` playing the role of `undefined`.  Reading an array out of
  range also yields `undefined`, which `jsGet`/`lastEntry` reproduce.
* Pile indices and card indices of a pile reference are modelled as
  naturals: the engine's own callers only produce such indices.
* Reading a *pile collection* out of range (`this.cascade[i]` with `i`
  past the end) yields `undefined` in JavaScript and any subsequent
  member access throws a `TypeError`.  The embedding instead totalises
  such reads with the empty pile; every theorem below that could touch
  one of those throwing paths carries in-range hypotheses, so the
  totalisation is never load-bearing.
* The `type` field of a pile reference is a JavaScript string and is
  kept as a `String`, so that references with kinds other than
  "foundation" / "open" / "cascade" stay representable.
-/

/-- Modelled from the spec: the `Card` class is not under `src/` (only its
uses are).  Per the spec a card is an immutable pair of a rank
(`value`, 1 = Ace .. 13 = King) and a suit; `spades` and `clubs` are the
black suits.  The class exposes `getValue()`, `isBlack()` and the plain
fields `value` and `suit` used by `FreecellGame`. -/
inductive Suit where
  | spades
  | clubs
  | diamonds
  | hearts
deriving DecidableEq, Repr

/-- Modelled from the spec: the rank/suit pair stored by the `Card` class. -/
structure Card where
  value : ℕ
  suit : Suit
deriving DecidableEq, Repr

/-- `Card.isBlack()`: true exactly for spades and clubs. -/
def Card.isBlack (c : Card) : Bool :=
  decide (c.suit = Suit.spades ∨ c.suit = Suit.clubs)

/-- One slot of a JavaScript card array: a `Card` or `undefined`. -/
abbrev Entry : Type := Option Card

/-- JavaScript array read `a[i]`: out-of-range reads yield `undefined`
(`none`), and a stored `undefined` also reads back as `undefined`. -/
def jsGet (l : List Entry) (i : ℕ) : Entry :=
  l.getD i none

/-- Read pile `i` of a pile collection; out of range gives the value that
the in-range JavaScript accesses of an always-empty pile would give.
(JavaScript itself would throw on a member access there; theorems using
this carry in-range hypotheses.) -/
def jsGetPile (ls : List (List Entry)) (i : ℕ) : List Entry :=
  ls.getD i []

/-- `a[a.length - 1]` on a card array: the last slot, `undefined` when empty. -/
def lastEntry (l : List Entry) : Entry :=
  l.getLast?.getD none

/-- `a.pop()`: remove and return the last element; on an empty array it
returns `undefined` and leaves the array empty. -/
def jsPop (l : List Entry) : Entry × List Entry :=
  (lastEntry l, l.dropLast)

/-- `ls[k].push(e)` on a pile collection: append `e` to pile `k`.
Out of range this is a no-op (JavaScript would throw; in-range
hypotheses accompany every use). -/
def pushToPile (ls : List (List Entry)) (k : ℕ) (e : Entry) : List (List Entry) :=
  ls.set k (jsGetPile ls k ++ [e])

/-- The mutable state of a `FreecellGame` instance: the three pile
collections.  The JavaScript field `open` is a Lean keyword, hence
`openPiles`. -/
structure GameState where
  foundation : List (List Entry)
  openPiles : List (List Entry)
  cascade : List (List Entry)
deriving DecidableEq, Repr

/-- A pile reference as passed by callers, e.g.
`{type: "cascade", index: 0, cardIndex: 5}`.  `cardIndex` is only
meaningful for cascade sources; for other references it is ignored by
the engine, and 0 can be used. -/
structure PileRef where
  type : String
  index : ℕ
  cardIndex : ℕ
deriving DecidableEq, Repr

/-- `FreecellGame._isStackable(underCard, overCard)`: both operands must be
actual `Card`s (`instanceof Card`; `undefined` fails that test), the over
card one rank below and of the other colour.  The JavaScript comparison
`under.getValue() - 1 === over.getValue()` on integers is
`under.value = over.value + 1` on `ℕ`. -/
def _isStackable (under over : Entry) : Bool :=
  match under, over with
  | some u, some o => decide (u.value = o.value + 1) && (u.isBlack != o.isBlack)
  | _, _ => false

/-- The loop body of `isBuild` on the suffix of a cascade pile: every
adjacent pair must be stackable; the final card (or an empty suffix)
ends the loop with `true`. -/
def isBuildList : List Entry → Bool
  | [] => true
  | [_] => true
  | a :: b :: rest => _isStackable a b && isBuildList (b :: rest)

/-- `isBuild(pileIdx, cardIdx)`: the run from `cardIdx` to the end of
cascade pile `pileIdx` is a valid build. -/
def isBuild (s : GameState) (pileIdx cardIdx : ℕ) : Bool :=
  isBuildList ((jsGetPile s.cascade pileIdx).drop cardIdx)

/-- `_numCanMove(destPileIndex)`:
`(numOpen + 1) * 2 ^ numEmptyCascade`, where `numOpen` counts empty open
piles and `numEmptyCascade` counts empty cascade piles, minus one when
the destination pile itself is empty.  For an in-range empty destination
the count is at least 1, so the truncated subtraction is exact. -/
def _numCanMove (s : GameState) (destPileIndex : ℕ) : ℕ :=
  let numOpen := s.openPiles.countP (fun p => p.isEmpty)
  let numEmptyCascade := s.cascade.countP (fun p => p.isEmpty)
  let numEmptyCascade :=
    if (jsGetPile s.cascade destPileIndex).isEmpty then numEmptyCascade - 1
    else numEmptyCascade
  (numOpen + 1) * 2 ^ numEmptyCascade

/-- `card.value` as read by `getValidFoundation`; reading `.value` of
`undefined` would throw in JavaScript, so theorems touching this path
hypothesise an actual card and the default 0 is never load-bearing
(0 matches no ace test and no successor test, as `-1` matches none in
JavaScript). -/
def entryValue : Entry → ℕ
  | some c => c.value
  | none => 0

/-- `card.suit` as read by `getValidFoundation`; same caveat as
`entryValue`. -/
def entrySuit : Entry → Suit
  | some c => c.suit
  | none => Suit.spades

/-- The `for (let i = 0; i < 4; i++)` loop of `getValidFoundation` for a
cascade source with candidate card `c`: an empty foundation pile ends the
scan at once (index for an ace, `-1` otherwise); a non-empty pile matches
when its top card has the candidate's suit and exactly one rank less. -/
def gvfScanCascade (c : Entry) : List (List Entry) → ℕ → ℤ
  | [], _ => -1
  | p :: rest, i =>
    if p.isEmpty then (if entryValue c = 1 then (i : ℤ) else -1)
    else if entrySuit (lastEntry p) = entrySuit c ∧ entryValue c = entryValue (lastEntry p) + 1 then (i : ℤ)
    else gvfScanCascade c rest (i + 1)

/-- The corresponding loop for an open source: an empty non-matching
foundation pile does *not* end the scan (there is no `else return -1`
in this branch of the source). -/
def gvfScanOpen (c : Entry) : List (List Entry) → ℕ → ℤ
  | [], _ => -1
  | p :: rest, i =>
    if p.isEmpty then (if entryValue c = 1 then (i : ℤ) else gvfScanOpen c rest (i + 1))
    else if entrySuit (lastEntry p) = entrySuit c ∧ entryValue c = entryValue (lastEntry p) + 1 then (i : ℤ)
    else gvfScanOpen c rest (i + 1)

/-- `getValidFoundation(srcPile)`: scan the first four foundation piles
for a destination for the referenced card; `-1` when none is found or the
source kind is neither "cascade" nor "open". -/
def getValidFoundation (s : GameState) (srcPile : PileRef) : ℤ :=
  if srcPile.type = "cascade" then
    gvfScanCascade (jsGet (jsGetPile s.cascade srcPile.index) srcPile.cardIndex)
      (s.foundation.take 4) 0
  else if srcPile.type = "open" then
    gvfScanOpen (jsGet (jsGetPile s.openPiles srcPile.index) 0)
      (s.foundation.take 4) 0
  else -1

/-- The loop of `getFirstAvailableOpen`. -/
def firstOpenScan : List (List Entry) → ℕ → ℤ
  | [], _ => -1
  | p :: rest, i => if p.isEmpty then (i : ℤ) else firstOpenScan rest (i + 1)

/-- `getFirstAvailableOpen()`: index of the first empty open pile, else `-1`. -/
def getFirstAvailableOpen (s : GameState) : ℤ :=
  firstOpenScan s.openPiles 0

/-- `isValidMove(srcPile, destPile)`.  Null references are not
representable in the model (the `!srcPile || !destPile` guard of the
source never fires here).  The check
`Array.isArray(this.open[destPile.index])` is true exactly for an
in-range index, hence the `isSome` conjunct.  Note that the source falls
through to `return true` when no branch matches the kind combination. -/
def isValidMove (s : GameState) (srcPile destPile : PileRef) : Bool :=
  if (srcPile.type = destPile.type ∧ srcPile.index = destPile.index) ∨ srcPile.type = "foundation" then
    false
  else if srcPile.type = "cascade" then
    if destPile.type = "open" then
      if getFirstAvailableOpen s = -1 then false
      else if ¬((srcPile.cardIndex : ℤ) = ((jsGetPile s.cascade srcPile.index).length : ℤ) - 1) then false
      else if (s.openPiles.get? destPile.index).isSome ∧ jsGetPile s.openPiles destPile.index ≠ [] then false
      else true
    else if destPile.type = "cascade" then
      if (jsGetPile s.cascade destPile.index).isEmpty then true
      else if (((jsGetPile s.cascade srcPile.index).length : ℤ) - (srcPile.cardIndex : ℤ)) > (_numCanMove s destPile.index : ℤ) then false
      else if ¬ isBuild s srcPile.index srcPile.cardIndex then false
      else if ¬ _isStackable (lastEntry (jsGetPile s.cascade destPile.index))
                  (jsGet (jsGetPile s.cascade srcPile.index) srcPile.cardIndex) then false
      else true
    else if destPile.type = "foundation" then
      if getValidFoundation s srcPile = -1 then false else true
    else true
  else if srcPile.type = "open" then
    if destPile.type = "cascade" then
      if (jsGetPile s.cascade destPile.index).isEmpty then true
      else if ¬ _isStackable (lastEntry (jsGetPile s.cascade destPile.index))
                  (jsGet (jsGetPile s.openPiles srcPile.index) 0) then false
      else true
    else if destPile.type = "open" then
      if jsGetPile s.openPiles destPile.index ≠ [] then false else true
    else if destPile.type = "foundation" then
      if getValidFoundation s srcPile = -1 then false else true
    else true
  else true

/-- `executeMove(srcPile, destPile)`: the pile mutations, translated
branch by branch.  The cascade-to-cascade case follows the source's
statement order (the source pile is overwritten before the destination
pile is read).  Unmatched kind combinations fall through with no
mutation. -/
def executeMove (s : GameState) (srcPile destPile : PileRef) : GameState :=
  if srcPile.type = "cascade" then
    if destPile.type = "open" then
      let pr := jsPop (jsGetPile s.cascade srcPile.index)
      { s with cascade := s.cascade.set srcPile.index pr.2,
               openPiles := pushToPile s.openPiles destPile.index pr.1 }
    else if destPile.type = "cascade" then
      let tempVar := (jsGetPile s.cascade srcPile.index).drop srcPile.cardIndex
      let c1 := s.cascade.set srcPile.index ((jsGetPile s.cascade srcPile.index).take srcPile.cardIndex)
      { s with cascade := c1.set destPile.index (jsGetPile c1 destPile.index ++ tempVar) }
    else if destPile.type = "foundation" then
      let pr := jsPop (jsGetPile s.cascade srcPile.index)
      { s with cascade := s.cascade.set srcPile.index pr.2,
               foundation := pushToPile s.foundation destPile.index pr.1 }
    else s
  else if srcPile.type = "open" then
    if destPile.type = "open" then
      let pr := jsPop (jsGetPile s.openPiles srcPile.index)
      { s with openPiles := pushToPile (s.openPiles.set srcPile.index pr.2) destPile.index pr.1 }
    else if destPile.type = "cascade" then
      let pr := jsPop (jsGetPile s.openPiles srcPile.index)
      { s with openPiles := s.openPiles.set srcPile.index pr.2,
               cascade := pushToPile s.cascade destPile.index pr.1 }
    else if destPile.type = "foundation" then
      let pr := jsPop (jsGetPile s.openPiles srcPile.index)
      { s with openPiles := s.openPiles.set srcPile.index pr.2,
               foundation := pushToPile s.foundation destPile.index pr.1 }
    else s
  else s

/-- `attemptAutoMove(srcPile)`: returns the new state together with the
boolean result.  The destination references built by the source carry no
`cardIndex`; it is irrelevant for open and foundation destinations and 0
stands in for it. -/
def attemptAutoMove (s : GameState) (srcPile : PileRef) : GameState × Bool :=
  if srcPile.type = "cascade" then
    if getValidFoundation s srcPile ≠ -1 then
      (executeMove s srcPile ⟨"foundation", (getValidFoundation s srcPile).toNat, 0⟩, true)
    else if getFirstAvailableOpen s ≠ -1 then
      (executeMove s srcPile ⟨"open", (getFirstAvailableOpen s).toNat, 0⟩, true)
    else (s, false)
  else if srcPile.type = "open" then
    if getValidFoundation s srcPile ≠ -1 then
      (executeMove s srcPile ⟨"foundation", (getValidFoundation s srcPile).toNat, 0⟩, true)
    else (s, false)
  else (s, false)

/-- The suit array of `getDeck`, in source order. -/
def suitsList : List Suit :=
  [Suit.spades, Suit.clubs, Suit.diamonds, Suit.hearts]

/-- The deck built by `getDeck` before shuffling: values 13 down to 1,
each with the four suits in array order.  `shuffle` applies a
Fisher-Yates permutation; the theorems below quantify over any deck with
the same multiset of cards, which covers every permutation. -/
def getDeckUnshuffled : List Card :=
  ((List.range 13).map (fun k => 13 - k)).flatMap (fun v => suitsList.map (fun st => ⟨v, st⟩))

/-- The full deck as entries (every slot an actual card). -/
def fullDeckE : List Entry :=
  getDeckUnshuffled.map some

/-- The deal loop of the constructor:
`this.cascade[i % numCascade].push(deck[i])` for `i` over the deck. -/
def dealAux (m : ℕ) : List Entry → ℕ → List (List Entry) → List (List Entry)
  | [], _, piles => piles
  | c :: rest, i, piles => dealAux m rest (i + 1) (pushToPile piles (i % m) c)

/-- The constructor body after argument validation: 4 empty foundation
piles, `numOpen` empty open piles, and the deck dealt round-robin into
`numCascade` cascade piles. -/
def construct (numOpen numCascade : ℕ) (deck : List Entry) : GameState :=
  { foundation := List.replicate 4 [],
    openPiles := List.replicate numOpen [],
    cascade := dealAux numCascade deck 0 (List.replicate numCascade []) }

/-- The constructor including argument validation, over JavaScript number
arguments (modelled as `ℚ`).  The source throws when
`isNaN(parseInt(q, 10)) || q < 1 || q > 52`.  For a finite numeric
argument with `1 ≤ q ≤ 52` the decimal string starts with a digit, so
`parseInt` is never `NaN` there and equals the integer part `⌊q⌋`
(`q` is positive); for `q < 1` or `q > 52` the range disjuncts throw
regardless of `parseInt`.  Over numeric arguments the throw condition is
therefore exactly `q < 1 ∨ 52 < q`, and the retained counts are the
truncated values. -/
def constructQ (numOpen numCascade : ℚ) (deck : List Entry) : Except String GameState :=
  if numOpen < 1 ∨ 52 < numOpen then
    Except.error ("Invalid number of open piles: " ++ toString numOpen)
  else if numCascade < 1 ∨ 52 < numCascade then
    Except.error ("Invalid number of cascade piles: " ++ toString numCascade)
  else
    Except.ok (construct (Int.toNat ⌊numOpen⌋) (Int.toNat ⌊numCascade⌋) deck)

/-- The multiset of one pile collection's entries. -/
def pilesMS (ls : List (List Entry)) : Multiset Entry :=
  (ls.flatten : List Entry)

/-- The multiset union of every slot of every pile of the game. -/
def cardUnion (s : GameState) : Multiset Entry :=
  pilesMS s.foundation + pilesMS s.openPiles + pilesMS s.cascade

/-!
## Basic lemmas about the array operations
-/

theorem jsPop_concat (l : List Entry) (e : Entry) : jsPop (l ++ [e]) = (e, l) := by
  simp [jsPop, lastEntry]

theorem jsPop_spec (l : List Entry) (h : l ≠ []) : (jsPop l).2 ++ [(jsPop l).1] = l := by
  show l.dropLast ++ [lastEntry l] = l
  rw [lastEntry, List.getLast?_eq_getLast_of_ne_nil h, Option.getD_some]
  exact List.dropLast_append_getLast h

theorem jsGetPile_set_self (ls : List (List Entry)) (k : ℕ) (q : List Entry)
    (h : k < ls.length) : jsGetPile (ls.set k q) k = q := by
  induction ls generalizing k with
  | nil => simp at h
  | cons a tl ih =>
    cases k with
    | zero => rfl
    | succ k => exact ih k (by simpa using h)

theorem jsGetPile_set_ne (ls : List (List Entry)) (k j : ℕ) (q : List Entry)
    (h : k ≠ j) : jsGetPile (ls.set k q) j = jsGetPile ls j := by
  induction ls generalizing k j with
  | nil => rfl
  | cons a tl ih =>
    cases k with
    | zero => cases j with
      | zero => exact absurd rfl h
      | succ j => rfl
    | succ k => cases j with
      | zero => rfl
      | succ j => exact ih k j (fun hkj => h (by omega))

theorem pushToPile_length (ls : List (List Entry)) (k : ℕ) (e : Entry) :
    (pushToPile ls k e).length = ls.length := by
  simp [pushToPile]

/-!
## Multiset lemmas: the card content of pile collections
-/

theorem pilesMS_nil : pilesMS [] = 0 := rfl

theorem pilesMS_cons (p : List Entry) (ls : List (List Entry)) :
    pilesMS (p :: ls) = (p : Multiset Entry) + pilesMS ls := by
  simp [pilesMS]

theorem pilesMS_replicate_nil (n : ℕ) : pilesMS (List.replicate n []) = 0 := by
  induction n with
  | zero => rfl
  | succ n ih => simpa [pilesMS_cons] using ih

theorem pilesMS_set (ls : List (List Entry)) (k : ℕ) (q : List Entry)
    (h : k < ls.length) :
    pilesMS (ls.set k q) + (jsGetPile ls k : Multiset Entry) =
      pilesMS ls + (q : Multiset Entry) := by
  induction ls generalizing k with
  | nil => simp at h
  | cons a tl ih =>
    cases k with
    | zero =>
      show pilesMS (q :: tl) + (a : Multiset Entry) = pilesMS (a :: tl) + (q : Multiset Entry)
      rw [pilesMS_cons, pilesMS_cons]
      abel
    | succ k =>
      have hk : k < tl.length := by simpa using h
      show pilesMS (a :: tl.set k q) + (jsGetPile tl k : Multiset Entry) = _
      rw [pilesMS_cons, pilesMS_cons, add_assoc, ih k hk, add_assoc]

theorem pilesMS_push (ls : List (List Entry)) (k : ℕ) (e : Entry)
    (h : k < ls.length) :
    pilesMS (pushToPile ls k e) = pilesMS ls + {e} := by
  have h2 := pilesMS_set ls k (jsGetPile ls k ++ [e]) h
  have h3 : ((jsGetPile ls k ++ [e] : List Entry) : Multiset Entry) =
      (jsGetPile ls k : Multiset Entry) + {e} := by
    rw [← Multiset.coe_add, Multiset.coe_singleton]
  rw [pushToPile] at *
  have := h2
  rw [h3] at this
  have goal : pilesMS (ls.set k (jsGetPile ls k ++ [e])) + (jsGetPile ls k : Multiset Entry) =
      (pilesMS ls + {e}) + (jsGetPile ls k : Multiset Entry) := by
    rw [this]; abel
  exact add_right_cancel goal

theorem entries_take_drop (l : List Entry) (n : ℕ) :
    ((l.take n : List Entry) : Multiset Entry) + ((l.drop n : List Entry) : Multiset Entry) =
      (l : Multiset Entry) := by
  rw [Multiset.coe_add, List.take_append_drop]

theorem pop_entries (l : List Entry) (h : l ≠ []) :
    (((jsPop l).2 : List Entry) : Multiset Entry) + {(jsPop l).1} = (l : Multiset Entry) := by
  conv_rhs => rw [← jsPop_spec l h]
  rw [← Multiset.coe_add, Multiset.coe_singleton]

theorem pilesMS_pop_push_other (ls ms : List (List Entry)) (i j : ℕ)
    (hi : i < ls.length) (hj : j < ms.length) (hne : jsGetPile ls i ≠ []) :
    pilesMS (ls.set i (jsPop (jsGetPile ls i)).2) +
      pilesMS (pushToPile ms j (jsPop (jsGetPile ls i)).1) = pilesMS ls + pilesMS ms := by
  have h1 := pilesMS_set ls i (jsPop (jsGetPile ls i)).2 hi
  have h2 := pilesMS_push ms j (jsPop (jsGetPile ls i)).1 hj
  have h3 := pop_entries (jsGetPile ls i) hne
  rw [h2]
  have key : pilesMS (ls.set i (jsPop (jsGetPile ls i)).2) +
      ((jsGetPile ls i : List Entry) : Multiset Entry) =
      pilesMS ls + (((jsPop (jsGetPile ls i)).2 : List Entry) : Multiset Entry) := h1
  have goal2 : pilesMS (ls.set i (jsPop (jsGetPile ls i)).2) + {(jsPop (jsGetPile ls i)).1} +
      (((jsPop (jsGetPile ls i)).2 : List Entry) : Multiset Entry) =
      pilesMS ls + (((jsPop (jsGetPile ls i)).2 : List Entry) : Multiset Entry) := by
    rw [← h3] at key
    calc pilesMS (ls.set i (jsPop (jsGetPile ls i)).2) + {(jsPop (jsGetPile ls i)).1} +
        (((jsPop (jsGetPile ls i)).2 : List Entry) : Multiset Entry)
        = pilesMS (ls.set i (jsPop (jsGetPile ls i)).2) +
          ((((jsPop (jsGetPile ls i)).2 : List Entry) : Multiset Entry) +
            {(jsPop (jsGetPile ls i)).1}) := by abel
      _ = pilesMS ls + (((jsPop (jsGetPile ls i)).2 : List Entry) : Multiset Entry) := key
  have h4 := add_right_cancel goal2
  calc pilesMS (ls.set i (jsPop (jsGetPile ls i)).2) +
      (pilesMS ms + {(jsPop (jsGetPile ls i)).1})
      = (pilesMS (ls.set i (jsPop (jsGetPile ls i)).2) + {(jsPop (jsGetPile ls i)).1}) +
        pilesMS ms := by abel
    _ = pilesMS ls + pilesMS ms := by rw [h4]

theorem pilesMS_pop_push_same (ls : List (List Entry)) (i j : ℕ)
    (hi : i < ls.length) (hj : j < ls.length) (hne : jsGetPile ls i ≠ []) :
    pilesMS (pushToPile (ls.set i (jsPop (jsGetPile ls i)).2) j (jsPop (jsGetPile ls i)).1) =
      pilesMS ls := by
  have hj2 : j < (ls.set i (jsPop (jsGetPile ls i)).2).length := by simpa using hj
  rw [pilesMS_push _ _ _ hj2]
  have h1 := pilesMS_set ls i (jsPop (jsGetPile ls i)).2 hi
  have h3 := pop_entries (jsGetPile ls i) hne
  have : pilesMS (ls.set i (jsPop (jsGetPile ls i)).2) + {(jsPop (jsGetPile ls i)).1} +
      (((jsPop (jsGetPile ls i)).2 : List Entry) : Multiset Entry) =
      pilesMS ls + (((jsPop (jsGetPile ls i)).2 : List Entry) : Multiset Entry) := by
    rw [← h3] at h1
    calc pilesMS (ls.set i (jsPop (jsGetPile ls i)).2) + {(jsPop (jsGetPile ls i)).1} +
        (((jsPop (jsGetPile ls i)).2 : List Entry) : Multiset Entry)
        = pilesMS (ls.set i (jsPop (jsGetPile ls i)).2) +
          ((((jsPop (jsGetPile ls i)).2 : List Entry) : Multiset Entry) +
            {(jsPop (jsGetPile ls i)).1}) := by abel
      _ = pilesMS ls + (((jsPop (jsGetPile ls i)).2 : List Entry) : Multiset Entry) := h1
  exact add_right_cancel this

theorem pilesMS_slice_move (ls : List (List Entry)) (i j n : ℕ)
    (hi : i < ls.length) (hj : j < ls.length) (hij : i ≠ j) :
    pilesMS ((ls.set i ((jsGetPile ls i).take n)).set j
      (jsGetPile (ls.set i ((jsGetPile ls i).take n)) j ++ (jsGetPile ls i).drop n)) =
      pilesMS ls := by
  set X := ls.set i ((jsGetPile ls i).take n) with hX
  have hXj : jsGetPile X j = jsGetPile ls j := jsGetPile_set_ne ls i j _ hij
  have hjX : j < X.length := by simpa [hX] using hj
  have h2 := pilesMS_set X j (jsGetPile X j ++ (jsGetPile ls i).drop n) hjX
  have h1 := pilesMS_set ls i ((jsGetPile ls i).take n) hi
  have htd := entries_take_drop (jsGetPile ls i) n
  have happ : ((jsGetPile X j ++ (jsGetPile ls i).drop n : List Entry) : Multiset Entry) =
      (jsGetPile ls j : Multiset Entry) + (((jsGetPile ls i).drop n : List Entry) : Multiset Entry) := by
    rw [← Multiset.coe_add, hXj]
  rw [happ] at h2
  have goal : pilesMS (X.set j (jsGetPile X j ++ (jsGetPile ls i).drop n)) +
      ((jsGetPile ls i : List Entry) : Multiset Entry) +
      ((jsGetPile X j : List Entry) : Multiset Entry) =
      pilesMS ls + ((jsGetPile ls i : List Entry) : Multiset Entry) +
      ((jsGetPile X j : List Entry) : Multiset Entry) := by
    calc pilesMS (X.set j (jsGetPile X j ++ (jsGetPile ls i).drop n)) +
        ((jsGetPile ls i : List Entry) : Multiset Entry) +
        ((jsGetPile X j : List Entry) : Multiset Entry)
        = (pilesMS (X.set j (jsGetPile X j ++ (jsGetPile ls i).drop n)) +
            ((jsGetPile X j : List Entry) : Multiset Entry)) +
          ((jsGetPile ls i : List Entry) : Multiset Entry) := by rw [hXj]; abel
      _ = (pilesMS X + ((jsGetPile ls j : Multiset Entry) +
            (((jsGetPile ls i).drop n : List Entry) : Multiset Entry))) +
          ((jsGetPile ls i : List Entry) : Multiset Entry) := by rw [← h2]
      _ = (pilesMS X + ((jsGetPile ls i : List Entry) : Multiset Entry)) +
          ((jsGetPile ls j : Multiset Entry) +
            (((jsGetPile ls i).drop n : List Entry) : Multiset Entry)) := by abel
      _ = (pilesMS ls + (((jsGetPile ls i).take n : List Entry) : Multiset Entry)) +
          ((jsGetPile ls j : Multiset Entry) +
            (((jsGetPile ls i).drop n : List Entry) : Multiset Entry)) := by rw [h1]
      _ = pilesMS ls + ((((jsGetPile ls i).take n : List Entry) : Multiset Entry) +
            (((jsGetPile ls i).drop n : List Entry) : Multiset Entry)) +
          (jsGetPile ls j : Multiset Entry) := by abel
      _ = pilesMS ls + ((jsGetPile ls i : List Entry) : Multiset Entry) +
          ((jsGetPile X j : List Entry) : Multiset Entry) := by rw [htd, hXj]
  exact add_right_cancel (add_right_cancel goal)

theorem dealAux_length (m : ℕ) :
    ∀ (deck : List Entry) (i : ℕ) (piles : List (List Entry)),
      (dealAux m deck i piles).length = piles.length := by
  intro deck
  induction deck with
  | nil => intro i piles; rfl
  | cons c rest ih =>
    intro i piles
    rw [dealAux, ih, pushToPile_length]

theorem dealAux_ms (m : ℕ) (hm : 0 < m) :
    ∀ (deck : List Entry) (i : ℕ) (piles : List (List Entry)),
      piles.length = m →
      pilesMS (dealAux m deck i piles) = pilesMS piles + (deck : Multiset Entry) := by
  intro deck
  induction deck with
  | nil => intro i piles _; simp [dealAux]
  | cons c rest ih =>
    intro i piles hlen
    rw [dealAux]
    have hin : i % m < piles.length := by rw [hlen]; exact Nat.mod_lt _ hm
    have hlen2 : (pushToPile piles (i % m) c).length = m := by
      rw [pushToPile_length, hlen]
    rw [ih (i + 1) _ hlen2, pilesMS_push _ _ _ hin]
    have : ((c :: rest : List Entry) : Multiset Entry) = {c} + (rest : Multiset Entry) := by
      rw [← Multiset.coe_singleton, Multiset.coe_add]
      rfl
    rw [this]
    abel

/-!
## Specification-side definitions

These follow the *spec's words* (first pile such that ..., counts that
exclude the destination pile, ...), to be compared with the loop-by-loop
embeddings above.
-/

/-- Index of the first element satisfying `p`, if any (spec-side "first
pile that ..."). -/
def firstIdx {α : Type} (p : α → Bool) : List α → Option ℕ
  | [] => none
  | a :: rest => if p a then some 0 else (firstIdx p rest).map (· + 1)

/-- The spec's acceptance condition for a foundation pile and a candidate
card: "(a) is empty and the candidate card has rank 1, or (b) has a top
card of the same suit and exactly one rank below the candidate". -/
def foundationAccepts (c : Entry) (p : List Entry) : Bool :=
  if p.isEmpty then decide (entryValue c = 1)
  else decide (entrySuit (lastEntry p) = entrySuit c ∧ entryValue c = entryValue (lastEntry p) + 1)

/-- Spec-side valid-foundation lookup, as the claim states it: the first
of the 4 foundation piles accepting the candidate, else `-1`. -/
def specFirstFoundation (s : GameState) (c : Entry) : ℤ :=
  match firstIdx (foundationAccepts c) (s.foundation.take 4) with
  | some i => (i : ℤ)
  | none => -1

/-- What the cascade branch of `getValidFoundation` actually computes:
the scan stops at the first pile that is empty or accepts the candidate;
a non-ace candidate meeting an empty pile yields `-1` at once. -/
def specCascadeFoundation (s : GameState) (c : Entry) : ℤ :=
  match firstIdx (fun p => p.isEmpty || foundationAccepts c p) (s.foundation.take 4) with
  | some i =>
    if (jsGetPile (s.foundation.take 4) i).isEmpty ∧ ¬(entryValue c = 1) then -1 else (i : ℤ)
  | none => -1

theorem gvfScanOpen_eq (c : Entry) :
    ∀ (l : List (List Entry)) (i : ℕ),
      gvfScanOpen c l i =
        (match firstIdx (foundationAccepts c) l with
         | some j => ((i + j : ℕ) : ℤ)
         | none => -1) := by
  intro l
  induction l with
  | nil => intro i; rfl
  | cons p rest ih =>
    intro i
    by_cases hp : p.isEmpty
    · by_cases hv : entryValue c = 1
      · simp [gvfScanOpen, firstIdx, foundationAccepts, hp, hv]
      · rw [gvfScanOpen, if_pos hp, if_neg hv, ih (i + 1)]
        have hacc : foundationAccepts c p = false := by
          simp [foundationAccepts, hp, hv]
        rw [firstIdx, if_neg (by simp [hacc])]
        cases h : firstIdx (foundationAccepts c) rest with
        | none => rfl
        | some j =>
          show ((i + 1 + j : ℕ) : ℤ) = ((i + (j + 1) : ℕ) : ℤ)
          congr 1
          omega
    · by_cases hm : entrySuit (lastEntry p) = entrySuit c ∧ entryValue c = entryValue (lastEntry p) + 1
      · have hacc : foundationAccepts c p = true := by
          simp only [foundationAccepts, if_neg hp]
          exact decide_eq_true hm
        rw [gvfScanOpen, if_neg hp, if_pos hm, firstIdx, if_pos hacc]
        simp
      · have hacc : foundationAccepts c p = false := by
          simp only [foundationAccepts, if_neg hp]
          exact decide_eq_false hm
        rw [gvfScanOpen, if_neg hp, if_neg hm, ih (i + 1), firstIdx, if_neg (by simp [hacc])]
        cases h : firstIdx (foundationAccepts c) rest with
        | none => rfl
        | some j =>
          show ((i + 1 + j : ℕ) : ℤ) = ((i + (j + 1) : ℕ) : ℤ)
          congr 1
          omega

theorem gvfScanCascade_eq (c : Entry) :
    ∀ (l : List (List Entry)) (i : ℕ),
      gvfScanCascade c l i =
        (match firstIdx (fun p => p.isEmpty || foundationAccepts c p) l with
         | some j =>
           if (jsGetPile l j).isEmpty ∧ ¬(entryValue c = 1) then -1 else ((i + j : ℕ) : ℤ)
         | none => -1) := by
  intro l
  induction l with
  | nil => intro i; rfl
  | cons p rest ih =>
    intro i
    by_cases hp : p.isEmpty
    · have hpred : (p.isEmpty || foundationAccepts c p) = true := by simp [hp]
      rw [gvfScanCascade, if_pos hp, firstIdx, if_pos hpred]
      by_cases hv : entryValue c = 1
      · simp [jsGetPile, hv]
      · simp [jsGetPile, hp, hv]
    · by_cases hm : entrySuit (lastEntry p) = entrySuit c ∧ entryValue c = entryValue (lastEntry p) + 1
      · have hacc : foundationAccepts c p = true := by
          simp only [foundationAccepts, if_neg hp]
          exact decide_eq_true hm
        have hpred : (p.isEmpty || foundationAccepts c p) = true := by simp [hacc]
        rw [gvfScanCascade, if_neg hp, if_pos hm, firstIdx, if_pos hpred]
        simp [jsGetPile, hp]
      · have hacc : foundationAccepts c p = false := by
          simp only [foundationAccepts, if_neg hp]
          exact decide_eq_false hm
        have hpred : (p.isEmpty || foundationAccepts c p) = false := by
          simp [hp, hacc]
        rw [gvfScanCascade, if_neg hp, if_neg hm, ih (i + 1), firstIdx, if_neg (by simp [hpred])]
        cases h : firstIdx (fun p => p.isEmpty || foundationAccepts c p) rest with
        | none => rfl
        | some j =>
          show (if (jsGetPile rest j).isEmpty ∧ ¬(entryValue c = 1) then (-1 : ℤ)
                else ((i + 1 + j : ℕ) : ℤ)) =
              (if (jsGetPile (p :: rest) (j + 1)).isEmpty ∧ ¬(entryValue c = 1) then (-1 : ℤ)
                else ((i + (j + 1) : ℕ) : ℤ))
          have hg : jsGetPile (p :: rest) (j + 1) = jsGetPile rest j := rfl
          rw [hg]
          by_cases hj : (jsGetPile rest j).isEmpty ∧ ¬(entryValue c = 1)
          · rw [if_pos hj, if_pos hj]
          · rw [if_neg hj, if_neg hj]
            congr 1
            omega

theorem gvfScanCascade_bound (c : Entry) :
    ∀ (l : List (List Entry)) (i : ℕ),
      gvfScanCascade c l i = -1 ∨
        ∃ j, j < l.length ∧ gvfScanCascade c l i = ((i + j : ℕ) : ℤ) := by
  intro l
  induction l with
  | nil => intro i; left; rfl
  | cons p rest ih =>
    intro i
    rw [gvfScanCascade]
    by_cases hp : p.isEmpty
    · rw [if_pos hp]
      by_cases hv : entryValue c = 1
      · right; exact ⟨0, by simp, by rw [if_pos hv]; norm_num⟩
      · left; rw [if_neg hv]
    · rw [if_neg hp]
      by_cases hm : entrySuit (lastEntry p) = entrySuit c ∧ entryValue c = entryValue (lastEntry p) + 1
      · right; exact ⟨0, by simp, by rw [if_pos hm]; norm_num⟩
      · rw [if_neg hm]
        rcases ih (i + 1) with h | ⟨j, hj, he⟩
        · left; exact h
        · right
          refine ⟨j + 1, by simp; omega, ?_⟩
          rw [he]
          congr 1
          omega

theorem gvfScanOpen_bound (c : Entry) :
    ∀ (l : List (List Entry)) (i : ℕ),
      gvfScanOpen c l i = -1 ∨
        ∃ j, j < l.length ∧ gvfScanOpen c l i = ((i + j : ℕ) : ℤ) := by
  intro l
  induction l with
  | nil => intro i; left; rfl
  | cons p rest ih =>
    intro i
    rw [gvfScanOpen]
    by_cases hp : p.isEmpty
    · rw [if_pos hp]
      by_cases hv : entryValue c = 1
      · right; exact ⟨0, by simp, by rw [if_pos hv]; norm_num⟩
      · rw [if_neg hv]
        rcases ih (i + 1) with h | ⟨j, hj, he⟩
        · left; exact h
        · right
          refine ⟨j + 1, by simp; omega, ?_⟩
          rw [he]; congr 1; omega
    · rw [if_neg hp]
      by_cases hm : entrySuit (lastEntry p) = entrySuit c ∧ entryValue c = entryValue (lastEntry p) + 1
      · right; exact ⟨0, by simp, by rw [if_pos hm]; norm_num⟩
      · rw [if_neg hm]
        rcases ih (i + 1) with h | ⟨j, hj, he⟩
        · left; exact h
        · right
          refine ⟨j + 1, by simp; omega, ?_⟩
          rw [he]; congr 1; omega

theorem firstOpenScan_bound :
    ∀ (l : List (List Entry)) (i : ℕ),
      firstOpenScan l i = -1 ∨
        ∃ j, j < l.length ∧ firstOpenScan l i = ((i + j : ℕ) : ℤ) := by
  intro l
  induction l with
  | nil => intro i; left; rfl
  | cons p rest ih =>
    intro i
    rw [firstOpenScan]
    by_cases hp : p.isEmpty
    · right; exact ⟨0, by simp, by rw [if_pos hp]; norm_num⟩
    · rw [if_neg hp]
      rcases ih (i + 1) with h | ⟨j, hj, he⟩
      · left; exact h
      · right
        refine ⟨j + 1, by simp; omega, ?_⟩
        rw [he]; congr 1; omega

/-- `getValidFoundation` only returns `-1` or an index of one of the 4
foundation piles. -/
theorem getValidFoundation_bound (s : GameState) (srcPile : PileRef)
    (h : getValidFoundation s srcPile ≠ -1) :
    0 ≤ getValidFoundation s srcPile ∧
      (getValidFoundation s srcPile).toNat < (s.foundation.take 4).length := by
  rw [getValidFoundation] at *
  by_cases hc : srcPile.type = "cascade"
  · rw [if_pos hc] at *
    rcases gvfScanCascade_bound (jsGet (jsGetPile s.cascade srcPile.index) srcPile.cardIndex)
      (s.foundation.take 4) 0 with h1 | ⟨j, hj, he⟩
    · exact absurd h1 h
    · rw [he]; constructor
      · exact Int.ofNat_nonneg _
      · simpa using hj
  · rw [if_neg hc] at *
    by_cases ho : srcPile.type = "open"
    · rw [if_pos ho] at *
      rcases gvfScanOpen_bound (jsGet (jsGetPile s.openPiles srcPile.index) 0)
        (s.foundation.take 4) 0 with h1 | ⟨j, hj, he⟩
      · exact absurd h1 h
      · rw [he]; constructor
        · exact Int.ofNat_nonneg _
        · simpa using hj
    · rw [if_neg ho] at h
      exact absurd rfl h

/-- `getFirstAvailableOpen` only returns `-1` or an index of an open pile. -/
theorem getFirstAvailableOpen_bound (s : GameState)
    (h : getFirstAvailableOpen s ≠ -1) :
    0 ≤ getFirstAvailableOpen s ∧
      (getFirstAvailableOpen s).toNat < s.openPiles.length := by
  rw [getFirstAvailableOpen] at *
  rcases firstOpenScan_bound s.openPiles 0 with h1 | ⟨j, hj, he⟩
  · exact absurd h1 h
  · rw [he]; exact ⟨Int.ofNat_nonneg _, by simpa using hj⟩

theorem countP_eraseIdx (p : List Entry → Bool) :
    ∀ (ls : List (List Entry)) (d : ℕ), d < ls.length →
      ls.countP p = (ls.eraseIdx d).countP p + (if p (jsGetPile ls d) then 1 else 0) := by
  intro ls
  induction ls with
  | nil => intro d h; simp at h
  | cons a tl ih =>
    intro d hd
    cases d with
    | zero =>
      show (a :: tl).countP p = tl.countP p + _
      rw [List.countP_cons]
      rfl
    | succ d =>
      have hd2 : d < tl.length := by simpa using hd
      show (a :: tl).countP p = (a :: tl.eraseIdx d).countP p + _
      rw [List.countP_cons, List.countP_cons, ih d hd2]
      have : jsGetPile (a :: tl) (d + 1) = jsGetPile tl d := rfl
      rw [this]
      omega

/-!
## Card conservation under `executeMove`
-/

/-- The conditions under which an `executeMove` call is meaningful in
JavaScript: every accessed pile index is in range (out of range the call
throws), and every popped pile is non-empty (popping an empty pile would
push `undefined`, which is exactly the hole exhibited by the
counterexample to C4 below).  Cascade-to-cascade moves between distinct
piles only, as `isValidMove` already guarantees. -/
def wellFormedMove (s : GameState) (srcPile destPile : PileRef) : Prop :=
  (srcPile.type = "cascade" →
    srcPile.index < s.cascade.length ∧
    (destPile.type = "open" →
      jsGetPile s.cascade srcPile.index ≠ [] ∧ destPile.index < s.openPiles.length) ∧
    (destPile.type = "cascade" →
      destPile.index < s.cascade.length ∧ srcPile.index ≠ destPile.index) ∧
    (destPile.type = "foundation" →
      jsGetPile s.cascade srcPile.index ≠ [] ∧ destPile.index < s.foundation.length)) ∧
  (srcPile.type = "open" →
    srcPile.index < s.openPiles.length ∧ jsGetPile s.openPiles srcPile.index ≠ [] ∧
    (destPile.type = "open" → destPile.index < s.openPiles.length) ∧
    (destPile.type = "cascade" → destPile.index < s.cascade.length) ∧
    (destPile.type = "foundation" → destPile.index < s.foundation.length))

/-- A source reference whose referenced card actually exists (otherwise
`attemptAutoMove` would throw inside `getValidFoundation`). -/
def wellFormedSrc (s : GameState) (srcPile : PileRef) : Prop :=
  (srcPile.type = "cascade" → srcPile.index < s.cascade.length ∧
    (jsGet (jsGetPile s.cascade srcPile.index) srcPile.cardIndex).isSome = true) ∧
  (srcPile.type = "open" → srcPile.index < s.openPiles.length ∧
    (jsGet (jsGetPile s.openPiles srcPile.index) 0).isSome = true)

theorem jsGet_isSome_ne_nil (l : List Entry) (i : ℕ)
    (h : (jsGet l i).isSome = true) : l ≠ [] := by
  intro hl
  subst hl
  simp [jsGet] at h

/-- Every in-range, non-degenerate `executeMove` preserves the multiset
of all entries of all piles. -/
theorem cardUnion_executeMove (s : GameState) (srcPile destPile : PileRef)
    (h : wellFormedMove s srcPile destPile) :
    cardUnion (executeMove s srcPile destPile) = cardUnion s := by
  rw [executeMove]
  by_cases hc : srcPile.type = "cascade"
  · rw [if_pos hc]
    obtain ⟨hsi, hopen, hcas, hfnd⟩ := h.1 hc
    by_cases hdo : destPile.type = "open"
    · rw [if_pos hdo]
      obtain ⟨hnem, hdi⟩ := hopen hdo
      have key := pilesMS_pop_push_other s.cascade s.openPiles srcPile.index destPile.index
        hsi hdi hnem
      simp only [cardUnion]
      calc pilesMS s.foundation +
          pilesMS (pushToPile s.openPiles destPile.index (jsPop (jsGetPile s.cascade srcPile.index)).1) +
          pilesMS (s.cascade.set srcPile.index (jsPop (jsGetPile s.cascade srcPile.index)).2)
          = pilesMS s.foundation +
            (pilesMS (s.cascade.set srcPile.index (jsPop (jsGetPile s.cascade srcPile.index)).2) +
              pilesMS (pushToPile s.openPiles destPile.index (jsPop (jsGetPile s.cascade srcPile.index)).1)) := by
            abel
        _ = pilesMS s.foundation + (pilesMS s.cascade + pilesMS s.openPiles) := by rw [key]
        _ = pilesMS s.foundation + pilesMS s.openPiles + pilesMS s.cascade := by abel
    · rw [if_neg hdo]
      by_cases hdc : destPile.type = "cascade"
      · rw [if_pos hdc]
        obtain ⟨hdi, hne⟩ := hcas hdc
        have key := pilesMS_slice_move s.cascade srcPile.index destPile.index srcPile.cardIndex
          hsi hdi hne
        simp only [cardUnion]
        rw [key]
      · rw [if_neg hdc]
        by_cases hdf : destPile.type = "foundation"
        · rw [if_pos hdf]
          obtain ⟨hnem, hdi⟩ := hfnd hdf
          have key := pilesMS_pop_push_other s.cascade s.foundation srcPile.index destPile.index
            hsi hdi hnem
          simp only [cardUnion]
          calc pilesMS (pushToPile s.foundation destPile.index (jsPop (jsGetPile s.cascade srcPile.index)).1) +
              pilesMS s.openPiles +
              pilesMS (s.cascade.set srcPile.index (jsPop (jsGetPile s.cascade srcPile.index)).2)
              = pilesMS (s.cascade.set srcPile.index (jsPop (jsGetPile s.cascade srcPile.index)).2) +
                pilesMS (pushToPile s.foundation destPile.index (jsPop (jsGetPile s.cascade srcPile.index)).1) +
                pilesMS s.openPiles := by abel
            _ = pilesMS s.cascade + pilesMS s.foundation + pilesMS s.openPiles := by rw [key]
            _ = pilesMS s.foundation + pilesMS s.openPiles + pilesMS s.cascade := by abel
        · rw [if_neg hdf]
  · rw [if_neg hc]
    by_cases ho : srcPile.type = "open"
    · rw [if_pos ho]
      obtain ⟨hsi, hnem, hdo, hdc, hdf⟩ := h.2 ho
      by_cases hdo2 : destPile.type = "open"
      · rw [if_pos hdo2]
        have key := pilesMS_pop_push_same s.openPiles srcPile.index destPile.index
          hsi (hdo hdo2) hnem
        simp only [cardUnion]
        rw [key]
      · rw [if_neg hdo2]
        by_cases hdc2 : destPile.type = "cascade"
        · rw [if_pos hdc2]
          have key := pilesMS_pop_push_other s.openPiles s.cascade srcPile.index destPile.index
            hsi (hdc hdc2) hnem
          simp only [cardUnion]
          calc pilesMS s.foundation +
              pilesMS (s.openPiles.set srcPile.index (jsPop (jsGetPile s.openPiles srcPile.index)).2) +
              pilesMS (pushToPile s.cascade destPile.index (jsPop (jsGetPile s.openPiles srcPile.index)).1)
              = pilesMS s.foundation +
                (pilesMS (s.openPiles.set srcPile.index (jsPop (jsGetPile s.openPiles srcPile.index)).2) +
                  pilesMS (pushToPile s.cascade destPile.index (jsPop (jsGetPile s.openPiles srcPile.index)).1)) := by
                abel
            _ = pilesMS s.foundation + (pilesMS s.openPiles + pilesMS s.cascade) := by rw [key]
            _ = pilesMS s.foundation + pilesMS s.openPiles + pilesMS s.cascade := by abel
        · rw [if_neg hdc2]
          by_cases hdf2 : destPile.type = "foundation"
          · rw [if_pos hdf2]
            have key := pilesMS_pop_push_other s.openPiles s.foundation srcPile.index destPile.index
              hsi (hdf hdf2) hnem
            simp only [cardUnion]
            calc pilesMS (pushToPile s.foundation destPile.index (jsPop (jsGetPile s.openPiles srcPile.index)).1) +
                pilesMS (s.openPiles.set srcPile.index (jsPop (jsGetPile s.openPiles srcPile.index)).2) +
                pilesMS s.cascade
                = (pilesMS (s.openPiles.set srcPile.index (jsPop (jsGetPile s.openPiles srcPile.index)).2) +
                    pilesMS (pushToPile s.foundation destPile.index (jsPop (jsGetPile s.openPiles srcPile.index)).1)) +
                  pilesMS s.cascade := by abel
              _ = (pilesMS s.openPiles + pilesMS s.foundation) + pilesMS s.cascade := by rw [key]
              _ = pilesMS s.foundation + pilesMS s.openPiles + pilesMS s.cascade := by abel
          · rw [if_neg hdf2]
    · rw [if_neg ho]

/-- `attemptAutoMove` preserves the multiset of all entries, provided
the referenced source card exists and the game has its 4 foundation
piles. -/
theorem cardUnion_attemptAutoMove (s : GameState) (srcPile : PileRef)
    (hf : s.foundation.length = 4) (hw : wellFormedSrc s srcPile) :
    cardUnion (attemptAutoMove s srcPile).1 = cardUnion s := by
  have htake : (s.foundation.take 4).length = 4 := by
    rw [List.length_take, hf]
    omega
  rw [attemptAutoMove]
  by_cases hc : srcPile.type = "cascade"
  · rw [if_pos hc]
    obtain ⟨hsi, hsome⟩ := hw.1 hc
    have hnem : jsGetPile s.cascade srcPile.index ≠ [] :=
      jsGet_isSome_ne_nil _ _ hsome
    by_cases hg : getValidFoundation s srcPile = -1
    · rw [if_neg (by simpa using hg)]
      by_cases ha : getFirstAvailableOpen s = -1
      · rw [if_neg (by simpa using ha)]
      · rw [if_pos (by simpa using ha)]
        show cardUnion (executeMove s srcPile _) = cardUnion s
        apply cardUnion_executeMove
        refine ⟨fun _ => ⟨hsi, fun _ => ⟨hnem, ?_⟩, fun hdc => by simp at hdc, fun hdf => by simp at hdf⟩,
          fun ho => absurd (hc.symm.trans ho) (by decide)⟩
        exact (getFirstAvailableOpen_bound s ha).2
    · rw [if_pos (by simpa using hg)]
      show cardUnion (executeMove s srcPile _) = cardUnion s
      apply cardUnion_executeMove
      refine ⟨fun _ => ⟨hsi, fun hdo => by simp at hdo, fun hdc => by simp at hdc,
        fun _ => ⟨hnem, ?_⟩⟩, fun ho => absurd (hc.symm.trans ho) (by decide)⟩
      have hb := (getValidFoundation_bound s srcPile hg).2
      rw [htake] at hb
      show (getValidFoundation s srcPile).toNat < s.foundation.length
      omega
  · rw [if_neg hc]
    by_cases ho : srcPile.type = "open"
    · rw [if_pos ho]
      obtain ⟨hsi, hsome⟩ := hw.2 ho
      have hnem : jsGetPile s.openPiles srcPile.index ≠ [] :=
        jsGet_isSome_ne_nil _ _ hsome
      by_cases hg : getValidFoundation s srcPile = -1
      · rw [if_neg (by simpa using hg)]
      · rw [if_pos (by simpa using hg)]
        show cardUnion (executeMove s srcPile _) = cardUnion s
        apply cardUnion_executeMove
        refine ⟨fun hcc => absurd (ho.symm.trans hcc) (by decide),
          fun _ => ⟨hsi, hnem, fun hdo => by simp at hdo,
            fun hdc => by simp at hdc, fun _ => ?_⟩⟩
        have hb := (getValidFoundation_bound s srcPile hg).2
        rw [htake] at hb
        show (getValidFoundation s srcPile).toNat < s.foundation.length
        omega
    · rw [if_neg ho]

/-!
## Reachable states and the deck invariant
-/

/-- The states of the original claim C4, with the step hypotheses the
counterexample below forces: a freshly constructed game (for any
permutation the shuffle may produce), or the result of executing a move
that `isValidMove` accepts *and* whose referenced piles are in range with
a non-empty popped source, or the result of an `attemptAutoMove` whose
referenced source card exists. -/
inductive Reachable : GameState → Prop where
  | init (numOpen numCascade : ℕ) (deck : List Entry)
      (h1 : 1 ≤ numOpen) (h2 : numOpen ≤ 52) (h3 : 1 ≤ numCascade) (h4 : numCascade ≤ 52)
      (hdeck : (deck : Multiset Entry) = (fullDeckE : Multiset Entry)) :
      Reachable (construct numOpen numCascade deck)
  | move (s : GameState) (srcPile destPile : PileRef) (hr : Reachable s)
      (hv : isValidMove s srcPile destPile = true)
      (hw : wellFormedMove s srcPile destPile) :
      Reachable (executeMove s srcPile destPile)
  | auto (s : GameState) (srcPile : PileRef) (hr : Reachable s)
      (hf : s.foundation.length = 4) (hw : wellFormedSrc s srcPile) :
      Reachable (attemptAutoMove s srcPile).1

theorem cardUnion_construct (numOpen numCascade : ℕ) (deck : List Entry)
    (hm : 0 < numCascade) :
    cardUnion (construct numOpen numCascade deck) = (deck : Multiset Entry) := by
  rw [construct]
  simp only [cardUnion]
  rw [pilesMS_replicate_nil, pilesMS_replicate_nil,
    dealAux_ms numCascade hm deck 0 (List.replicate numCascade []) (by simp),
    pilesMS_replicate_nil]
  simp

/-- Every reachable state in the amended sense carries exactly the
52-card deck. -/
theorem cardUnion_reachable (s : GameState) (h : Reachable s) :
    cardUnion s = (fullDeckE : Multiset Entry) := by
  induction h with
  | init numOpen numCascade deck h1 h2 h3 h4 hdeck =>
    rw [cardUnion_construct numOpen numCascade deck (by omega), hdeck]
  | move s srcPile destPile hr hv hw ih =>
    rw [cardUnion_executeMove s srcPile destPile hw, ih]
  | auto s srcPile hr hf hw ih =>
    rw [cardUnion_attemptAutoMove s srcPile hf hw, ih]

theorem fullDeck_nodup : getDeckUnshuffled.Nodup := by decide

theorem mem_fullDeck (v : ℕ) (st : Suit) (h1 : 1 ≤ v) (h2 : v ≤ 13) :
    (⟨v, st⟩ : Card) ∈ getDeckUnshuffled := by
  rw [getDeckUnshuffled, List.mem_flatMap]
  refine ⟨v, ?_, ?_⟩
  · rw [List.mem_map]
    exact ⟨13 - v, by rw [List.mem_range]; omega, by omega⟩
  · rw [List.mem_map]
    refine ⟨st, ?_, rfl⟩
    cases st <;> simp [suitsList]

theorem count_fullDeckE (v : ℕ) (st : Suit) (h1 : 1 ≤ v) (h2 : v ≤ 13) :
    (fullDeckE : Multiset Entry).count (some ⟨v, st⟩) = 1 := by
  have hnd : fullDeckE.Nodup := by
    rw [fullDeckE]
    exact fullDeck_nodup.map (fun a b => by simp)
  have hmem : (some ⟨v, st⟩ : Entry) ∈ fullDeckE := by
    rw [fullDeckE, List.mem_map]
    exact ⟨⟨v, st⟩, mem_fullDeck v st h1 h2, rfl⟩
  rw [Multiset.coe_count]
  exact List.count_eq_one_of_mem hnd hmem

/-!
## Claim theorems
-/

/-- The spec-side count of `_numCanMove`'s exponent, written as the
claim words it: the number of empty cascade piles, excluding the
destination pile itself when that pile is empty. -/
def specEmptyCascade (s : GameState) (d : ℕ) : ℕ :=
  if (jsGetPile s.cascade d).isEmpty then
    (s.cascade.eraseIdx d).countP (fun p => p.isEmpty)
  else
    s.cascade.countP (fun p => p.isEmpty)

/-- C5: for every game state and in-range destination cascade pile index,
`_numCanMove` returns `(numEmptyOpen + 1) * 2 ^ numEmptyCascade` where
`numEmptyCascade` excludes the destination pile itself when that pile is
empty; and `isValidMove` rejects a cascade-to-cascade move onto a
non-empty destination whose run length exceeds this bound. -/
theorem numCanMove_spec (s : GameState) (d : ℕ) (hd : d < s.cascade.length) :
    _numCanMove s d =
      ((s.openPiles.countP (fun p => p.isEmpty)) + 1) * 2 ^ specEmptyCascade s d ∧
    ∀ srcPile destPile : PileRef,
      srcPile.type = "cascade" → destPile.type = "cascade" → destPile.index = d →
      (jsGetPile s.cascade d).isEmpty = false →
      (((jsGetPile s.cascade srcPile.index).length : ℤ) - (srcPile.cardIndex : ℤ)) >
        (_numCanMove s d : ℤ) →
      isValidMove s srcPile destPile = false := by
  constructor
  · simp only [_numCanMove, specEmptyCascade]
    by_cases hde : (jsGetPile s.cascade d).isEmpty
    · rw [if_pos hde, if_pos hde]
      have hcnt := countP_eraseIdx (fun p => p.isEmpty) s.cascade d hd
      rw [if_pos hde] at hcnt
      have : s.cascade.countP (fun p => p.isEmpty) - 1 =
          (s.cascade.eraseIdx d).countP (fun p => p.isEmpty) := by omega
      rw [this]
    · rw [if_neg hde, if_neg hde]
  · intro srcPile destPile h1 h2 h3 hne hgt
    rw [isValidMove]
    by_cases heq : srcPile.index = destPile.index
    · rw [if_pos (Or.inl ⟨h1.trans h2.symm, heq⟩)]
    · have hguard : ¬((srcPile.type = destPile.type ∧ srcPile.index = destPile.index) ∨
          srcPile.type = "foundation") := by
        rintro (⟨-, hi⟩ | hff)
        · exact heq hi
        · rw [h1] at hff; exact absurd hff (by decide)
      rw [if_neg hguard, if_pos h1, if_neg (show ¬(destPile.type = "open") by rw [h2]; decide),
        if_pos h2, h3, if_neg (by rw [hne]; decide), if_pos hgt]

/-- C6: a cascade-to-cascade move between distinct in-range piles is
valid unconditionally when the destination pile is empty; onto a
non-empty destination it is valid exactly when the run length is within
`_numCanMove`, the run is a build, and the run's bottom card stacks on
the destination's top card. -/
theorem cascadeToCascade_spec (s : GameState) (srcPile destPile : PileRef)
    (hs : srcPile.type = "cascade") (hd : destPile.type = "cascade")
    (hne : srcPile.index ≠ destPile.index)
    (hsi : srcPile.index < s.cascade.length) (hdi : destPile.index < s.cascade.length) :
    isValidMove s srcPile destPile =
      (if (jsGetPile s.cascade destPile.index).isEmpty then true
       else
        (decide ((((jsGetPile s.cascade srcPile.index).length : ℤ) - (srcPile.cardIndex : ℤ)) ≤
            (_numCanMove s destPile.index : ℤ)) &&
          isBuild s srcPile.index srcPile.cardIndex &&
          _isStackable (lastEntry (jsGetPile s.cascade destPile.index))
            (jsGet (jsGetPile s.cascade srcPile.index) srcPile.cardIndex))) := by
  have hguard : ¬((srcPile.type = destPile.type ∧ srcPile.index = destPile.index) ∨
      srcPile.type = "foundation") := by
    rintro (⟨-, hi⟩ | hff)
    · exact hne hi
    · rw [hs] at hff; exact absurd hff (by decide)
  rw [isValidMove, if_neg hguard, if_pos hs,
    if_neg (show ¬(destPile.type = "open") by rw [hd]; decide), if_pos hd]
  by_cases he : (jsGetPile s.cascade destPile.index).isEmpty
  · rw [if_pos he, if_pos he]
  · rw [if_neg he, if_neg he]
    by_cases h1 : (((jsGetPile s.cascade srcPile.index).length : ℤ) - (srcPile.cardIndex : ℤ)) >
        (_numCanMove s destPile.index : ℤ)
    · rw [if_pos h1]
      have : decide ((((jsGetPile s.cascade srcPile.index).length : ℤ) - (srcPile.cardIndex : ℤ)) ≤
          (_numCanMove s destPile.index : ℤ)) = false := by
        simp only [decide_eq_false_iff_not]
        omega
      rw [this]
      simp
    · rw [if_neg h1]
      have hle : decide ((((jsGetPile s.cascade srcPile.index).length : ℤ) - (srcPile.cardIndex : ℤ)) ≤
          (_numCanMove s destPile.index : ℤ)) = true := by
        simp only [decide_eq_true_eq]
        omega
      rw [hle]
      by_cases h2 : isBuild s srcPile.index srcPile.cardIndex
      · rw [if_neg (by simp [h2])]
        by_cases h3 : _isStackable (lastEntry (jsGetPile s.cascade destPile.index))
            (jsGet (jsGetPile s.cascade srcPile.index) srcPile.cardIndex)
        · rw [if_neg (by simp [h3])]
          simp [h2, h3]
        · rw [if_pos (by simp [h3])]
          simp [h2, h3]
      · rw [if_pos (by simp [h2])]
        simp [h2]

theorem isStackable_none_right (under : Entry) : _isStackable under none = false := by
  cases under <;> rfl

/-- The state-transformer view of a call to `isValidMove`: the method
body of the source contains only reads (no assignment to any pile or
field), so its embedding as a state transformer returns the unchanged
state together with the pure result. -/
def callIsValidMove (s : GameState) (srcPile destPile : PileRef) : Bool × GameState :=
  (isValidMove s srcPile destPile, s)

/-- C9: `isValidMove` is a pure predicate: a call leaves every pile
collection unchanged, and a repeated call on the state a first call
returns yields the same result. -/
theorem isValidMove_pure (s : GameState) (srcPile destPile : PileRef) :
    (callIsValidMove s srcPile destPile).2.foundation = s.foundation ∧
    (callIsValidMove s srcPile destPile).2.openPiles = s.openPiles ∧
    (callIsValidMove s srcPile destPile).2.cascade = s.cascade ∧
    (callIsValidMove (callIsValidMove s srcPile destPile).2 srcPile destPile).1 =
      (callIsValidMove s srcPile destPile).1 :=
  ⟨rfl, rfl, rfl, rfl⟩

/-- C10: `isValidMove` does not require the source open pile to hold a
card: a move from an empty open pile to a different empty open pile, or
to an empty cascade pile, is reported valid; only a non-empty cascade
destination rejects it, through the stackability check on the missing
card. -/
theorem isValidMove_emptyOpenSource (s : GameState) (srcPile destPile : PileRef)
    (hs : srcPile.type = "open") (hsE : jsGetPile s.openPiles srcPile.index = []) :
    (destPile.type = "open" → srcPile.index ≠ destPile.index →
      destPile.index < s.openPiles.length → jsGetPile s.openPiles destPile.index = [] →
      isValidMove s srcPile destPile = true) ∧
    (destPile.type = "cascade" → destPile.index < s.cascade.length →
      jsGetPile s.cascade destPile.index = [] →
      isValidMove s srcPile destPile = true) ∧
    (destPile.type = "cascade" → jsGetPile s.cascade destPile.index ≠ [] →
      isValidMove s srcPile destPile = false) := by
  refine ⟨?_, ?_, ?_⟩
  · intro hd hne _ hdE
    have hguard : ¬((srcPile.type = destPile.type ∧ srcPile.index = destPile.index) ∨
        srcPile.type = "foundation") := by
      rintro (⟨-, hi⟩ | hff)
      · exact hne hi
      · rw [hs] at hff; exact absurd hff (by decide)
    rw [isValidMove, if_neg hguard, if_neg (by rw [hs]; decide), if_pos hs,
      if_neg (show ¬(destPile.type = "cascade") by rw [hd]; decide), if_pos hd,
      if_neg (by simp [hdE])]
  · intro hd _ hdE
    have hguard : ¬((srcPile.type = destPile.type ∧ srcPile.index = destPile.index) ∨
        srcPile.type = "foundation") := by
      rintro (⟨ht2, -⟩ | hff)
      · rw [hs, hd] at ht2; exact absurd ht2 (by decide)
      · rw [hs] at hff; exact absurd hff (by decide)
    rw [isValidMove, if_neg hguard, if_neg (by rw [hs]; decide), if_pos hs, if_pos hd,
      if_pos (by simp [hdE])]
  · intro hd hdne
    have hguard : ¬((srcPile.type = destPile.type ∧ srcPile.index = destPile.index) ∨
        srcPile.type = "foundation") := by
      rintro (⟨ht, -⟩ | hff)
      · rw [hs, hd] at ht; exact absurd ht (by decide)
      · rw [hs] at hff; exact absurd hff (by decide)
    have hstack : _isStackable (lastEntry (jsGetPile s.cascade destPile.index))
        (jsGet (jsGetPile s.openPiles srcPile.index) 0) = false := by
      rw [hsE]
      exact isStackable_none_right _
    rw [isValidMove, if_neg hguard, if_neg (by rw [hs]; decide), if_pos hs, if_pos hd,
      if_neg (by simp [hdne]), if_pos (by simp [hstack])]

/-- A small game state (4 empty foundations, 1 empty open pile, 1 empty
cascade pile) for counterexamples and witnesses. -/
def stateSmall : GameState := ⟨[[], [], [], []], [[]], [[]]⟩

/-- C2 counterexample: a source reference of kind "seat" — not one of
the six legal combinations — is *accepted*: `isValidMove` falls through
to `return true`, contradicting the claim that every unmatched kind
combination yields `false`. -/
theorem unmatchedKind_counterexample :
    isValidMove stateSmall ⟨"seat", 0, 0⟩ ⟨"open", 0, 0⟩ = true := by decide

/-- C2 (amended): references failing the initial guards (foundation
source, or identical kind and index) are rejected; every *other*
unmatched kind combination — a source kind outside the three known
kinds, or a cascade/open source with an unknown destination kind —
falls through to `true`, not `false`. -/
theorem isValidMove_unmatched (s : GameState) (srcPile destPile : PileRef) :
    (srcPile.type = "foundation" → isValidMove s srcPile destPile = false) ∧
    (srcPile.type = destPile.type ∧ srcPile.index = destPile.index →
      isValidMove s srcPile destPile = false) ∧
    (¬(srcPile.type = destPile.type ∧ srcPile.index = destPile.index) →
      srcPile.type ≠ "foundation" → srcPile.type ≠ "cascade" → srcPile.type ≠ "open" →
      isValidMove s srcPile destPile = true) ∧
    ((srcPile.type = "cascade" ∨ srcPile.type = "open") →
      ¬(srcPile.type = destPile.type ∧ srcPile.index = destPile.index) →
      destPile.type ≠ "open" → destPile.type ≠ "cascade" → destPile.type ≠ "foundation" →
      isValidMove s srcPile destPile = true) := by
  refine ⟨?_, ?_, ?_, ?_⟩
  · intro hff
    rw [isValidMove, if_pos (Or.inr hff)]
  · intro hsame
    rw [isValidMove, if_pos (Or.inl hsame)]
  · intro hns hnf hnc hno
    have hguard : ¬((srcPile.type = destPile.type ∧ srcPile.index = destPile.index) ∨
        srcPile.type = "foundation") := by
      rintro (h | h)
      · exact hns h
      · exact hnf h
    rw [isValidMove, if_neg hguard, if_neg hnc, if_neg hno]
  · intro hsrc hns h1 h2 h3
    rcases hsrc with hc | ho
    · have hguard : ¬((srcPile.type = destPile.type ∧ srcPile.index = destPile.index) ∨
          srcPile.type = "foundation") := by
        rintro (h | h)
        · exact hns h
        · rw [hc] at h; exact absurd h (by decide)
      rw [isValidMove, if_neg hguard, if_pos hc, if_neg h1, if_neg h2, if_neg h3]
    · have hguard : ¬((srcPile.type = destPile.type ∧ srcPile.index = destPile.index) ∨
          srcPile.type = "foundation") := by
        rintro (h | h)
        · exact hns h
        · rw [ho] at h; exact absurd h (by decide)
      rw [isValidMove, if_neg hguard, if_neg (show ¬(srcPile.type = "cascade") by rw [ho]; decide),
        if_pos ho, if_neg h2, if_neg h1, if_neg h3]

theorem isValidMove_unmatched_witness :
    isValidMove stateSmall ⟨"foundation", 0, 0⟩ ⟨"open", 1, 0⟩ = false ∧
    isValidMove stateSmall ⟨"seat", 2, 0⟩ ⟨"seat", 2, 0⟩ = false ∧
    isValidMove stateSmall ⟨"seat", 0, 0⟩ ⟨"cascade", 0, 0⟩ = true ∧
    isValidMove stateSmall ⟨"cascade", 0, 0⟩ ⟨"basket", 1, 0⟩ = true := by
  refine ⟨?_, ?_, ?_, ?_⟩
  · exact (isValidMove_unmatched stateSmall ⟨"foundation", 0, 0⟩ ⟨"open", 1, 0⟩).1 rfl
  · exact (isValidMove_unmatched stateSmall ⟨"seat", 2, 0⟩ ⟨"seat", 2, 0⟩).2.1 ⟨rfl, rfl⟩
  · exact (isValidMove_unmatched stateSmall ⟨"seat", 0, 0⟩ ⟨"cascade", 0, 0⟩).2.2.1
      (by decide) (by decide) (by decide) (by decide)
  · exact (isValidMove_unmatched stateSmall ⟨"cascade", 0, 0⟩ ⟨"basket", 1, 0⟩).2.2.2
      (Or.inl rfl) (by decide) (by decide) (by decide) (by decide)

/-- State with no open piles and two cascade piles, the first holding 2
cards: `_numCanMove` of pile 1 is `(0 + 1) * 2 ^ 0 = 1 < 2`. -/
def stateC5 : GameState :=
  ⟨[[], [], [], []], [], [[some ⟨5, Suit.spades⟩, some ⟨9, Suit.hearts⟩], [some ⟨3, Suit.clubs⟩]]⟩

theorem numCanMove_spec_witness :
    _numCanMove stateC5 1 =
      ((stateC5.openPiles.countP (fun p => p.isEmpty)) + 1) * 2 ^ specEmptyCascade stateC5 1 ∧
    isValidMove stateC5 ⟨"cascade", 0, 0⟩ ⟨"cascade", 1, 0⟩ = false := by
  have h := numCanMove_spec stateC5 1 (by decide)
  exact ⟨h.1, h.2 ⟨"cascade", 0, 0⟩ ⟨"cascade", 1, 0⟩ rfl rfl rfl (by decide) (by decide)⟩

/-- State whose cascade pile 0 is *not* a valid build (9♥ under 5♠) and
whose cascade pile 1 is empty. -/
def stateC6 : GameState :=
  ⟨[[], [], [], []], [[]], [[some ⟨9, Suit.hearts⟩, some ⟨5, Suit.spades⟩], []]⟩

theorem cascadeToCascade_spec_witness :
    isValidMove stateC6 ⟨"cascade", 0, 0⟩ ⟨"cascade", 1, 0⟩ = true := by
  have h := cascadeToCascade_spec stateC6 ⟨"cascade", 0, 0⟩ ⟨"cascade", 1, 0⟩
    rfl rfl (by decide) (by decide) (by decide)
  rw [h]
  decide

/-- State with two empty open piles, an empty cascade pile 0 and a
non-empty cascade pile 1. -/
def stateC10 : GameState :=
  ⟨[[], [], [], []], [[], []], [[], [some ⟨5, Suit.spades⟩]]⟩

theorem isValidMove_emptyOpenSource_witness :
    isValidMove stateC10 ⟨"open", 0, 0⟩ ⟨"open", 1, 0⟩ = true ∧
    isValidMove stateC10 ⟨"open", 0, 0⟩ ⟨"cascade", 0, 0⟩ = true ∧
    isValidMove stateC10 ⟨"open", 0, 0⟩ ⟨"cascade", 1, 0⟩ = false := by
  refine ⟨?_, ?_, ?_⟩
  · exact (isValidMove_emptyOpenSource stateC10 ⟨"open", 0, 0⟩ ⟨"open", 1, 0⟩ rfl rfl).1
      rfl (by decide) (by decide) rfl
  · exact (isValidMove_emptyOpenSource stateC10 ⟨"open", 0, 0⟩ ⟨"cascade", 0, 0⟩ rfl rfl).2.1
      rfl (by decide) rfl
  · exact (isValidMove_emptyOpenSource stateC10 ⟨"open", 0, 0⟩ ⟨"cascade", 1, 0⟩ rfl rfl).2.2
      rfl (by decide)

/-- State falsifying C1: foundation pile 0 is empty, foundation pile 1
holds the ace of spades, and the cascade source card is the 2 of spades. -/
def stateC1 : GameState :=
  ⟨[[], [some ⟨1, Suit.spades⟩], [], []], [[]], [[some ⟨2, Suit.spades⟩]]⟩

/-- C1 counterexample: with the 2♠ as cascade candidate, foundation pile
1 (topped by A♠) satisfies condition (b) of the claim, yet
`getValidFoundation` returns `-1`: the cascade branch stops at the first
*empty* foundation pile and returns `-1` immediately when the candidate
is not an ace, never scanning the later piles. -/
theorem getValidFoundation_counterexample :
    getValidFoundation stateC1 ⟨"cascade", 0, 0⟩ = -1 ∧
    foundationAccepts (some ⟨2, Suit.spades⟩) (jsGetPile stateC1.foundation 1) = true := by
  decide

/-- C1 (amended): for an *open* source the claim is as stated — the
first of the 4 foundation piles accepting the candidate, else `-1`.
For a *cascade* source the scan stops at the first foundation pile that
is empty or accepts the candidate; if that pile is empty and the
candidate is not an ace the result is `-1` immediately, ignoring any
later matching pile. -/
theorem getValidFoundation_spec (s : GameState) (srcPile : PileRef)
    (hf : s.foundation.length = 4)
    (ht : srcPile.type = "open" ∨ srcPile.type = "cascade")
    (hc : (if srcPile.type = "open" then jsGet (jsGetPile s.openPiles srcPile.index) 0
           else jsGet (jsGetPile s.cascade srcPile.index) srcPile.cardIndex).isSome = true) :
    getValidFoundation s srcPile =
      (if srcPile.type = "open"
       then specFirstFoundation s (jsGet (jsGetPile s.openPiles srcPile.index) 0)
       else specCascadeFoundation s
         (jsGet (jsGetPile s.cascade srcPile.index) srcPile.cardIndex)) := by
  rcases ht with ho | hcc
  · have hnc : ¬ srcPile.type = "cascade" := by rw [ho]; decide
    rw [getValidFoundation, if_neg hnc, if_pos ho, if_pos ho, specFirstFoundation,
      gvfScanOpen_eq]
    cases firstIdx (foundationAccepts (jsGet (jsGetPile s.openPiles srcPile.index) 0))
        (s.foundation.take 4) with
    | none => rfl
    | some j => show ((0 + j : ℕ) : ℤ) = (j : ℤ); rw [Nat.zero_add]
  · have hno : ¬ srcPile.type = "open" := by rw [hcc]; decide
    rw [getValidFoundation, if_pos hcc, if_neg hno, specCascadeFoundation,
      gvfScanCascade_eq]
    cases firstIdx (fun p => p.isEmpty ||
        foundationAccepts (jsGet (jsGetPile s.cascade srcPile.index) srcPile.cardIndex) p)
        (s.foundation.take 4) with
    | none => rfl
    | some j =>
      show (if _ then (-1 : ℤ) else ((0 + j : ℕ) : ℤ)) = (if _ then (-1 : ℤ) else (j : ℤ))
      rw [Nat.zero_add]

/-- State for the C1 witness: empty foundations and an ace of hearts in
the open pile. -/
def stateC1w : GameState := ⟨[[], [], [], []], [[some ⟨1, Suit.hearts⟩]], [[]]⟩

theorem getValidFoundation_spec_witness :
    getValidFoundation stateC1w ⟨"open", 0, 0⟩ =
      specFirstFoundation stateC1w (some ⟨1, Suit.hearts⟩) := by
  have h := getValidFoundation_spec stateC1w ⟨"open", 0, 0⟩ (by decide) (Or.inl rfl) (by decide)
  exact h

/-- C3 counterexample: the non-integer argument `3.5` passes the
constructor's validation (`parseInt(3.5, 10)` is `3`, not `NaN`, and
`3.5` is within `[1, 52]`): construction *succeeds* and produces a game
with 3 open piles, instead of failing with an invalid-argument error. -/
theorem constructQ_counterexample :
    constructQ (7 / 2) 8 fullDeckE = Except.ok (construct 3 8 fullDeckE) ∧
    (construct 3 8 fullDeckE).openPiles.length = 3 := by
  constructor
  · rw [constructQ, if_neg (by norm_num), if_neg (by norm_num)]
    have hfl1 : ⌊(7 / 2 : ℚ)⌋ = 3 := by norm_num
    have hfl2 : ⌊(8 : ℚ)⌋ = 8 := by norm_num
    rw [hfl1, hfl2]
    rfl
  · decide

/-- C3 (amended): over numeric arguments, construction succeeds exactly
when both arguments lie in `[1, 52]` — including non-integers such as
`3.5`, which are truncated by `parseInt` — and fails with the
invalid-argument error otherwise; a successful construction has 4
foundation piles, `⌊numOpen⌋` open piles and `⌊numCascade⌋` cascade
piles. -/
theorem constructQ_spec (numOpen numCascade : ℚ) (deck : List Entry) :
    ((constructQ numOpen numCascade deck).toOption.isSome = true ↔
      (1 ≤ numOpen ∧ numOpen ≤ 52 ∧ 1 ≤ numCascade ∧ numCascade ≤ 52)) ∧
    (∀ g : GameState, constructQ numOpen numCascade deck = Except.ok g →
      g.foundation.length = 4 ∧ g.openPiles.length = Int.toNat ⌊numOpen⌋ ∧
        g.cascade.length = Int.toNat ⌊numCascade⌋) := by
  by_cases h1 : numOpen < 1 ∨ 52 < numOpen
  · rw [constructQ, if_pos h1]
    constructor
    · constructor
      · intro habs; simp [Except.toOption] at habs
      · rintro ⟨ha, hb, -, -⟩
        rcases h1 with h | h
        · linarith
        · linarith
    · intro g hg
      exact absurd hg (by simp)
  · by_cases h2 : numCascade < 1 ∨ 52 < numCascade
    · rw [constructQ, if_neg h1, if_pos h2]
      constructor
      · constructor
        · intro habs; simp [Except.toOption] at habs
        · rintro ⟨-, -, hc, hd⟩
          rcases h2 with h | h
          · linarith
          · linarith
      · intro g hg
        exact absurd hg (by simp)
    · rw [constructQ, if_neg h1, if_neg h2]
      push_neg at h1 h2
      constructor
      · constructor
        · intro _
          exact ⟨h1.1, h1.2, h2.1, h2.2⟩
        · intro _
          rfl
      · intro g hg
        have hg2 : g = construct (Int.toNat ⌊numOpen⌋) (Int.toNat ⌊numCascade⌋) deck := by
          injection hg with h
          exact h.symm
        subst hg2
        refine ⟨by simp [construct], by simp [construct], ?_⟩
        rw [construct]
        show (dealAux (Int.toNat ⌊numCascade⌋) deck 0
          (List.replicate (Int.toNat ⌊numCascade⌋) [])).length = _
        rw [dealAux_length]
        simp

theorem constructQ_spec_witness :
    (constructQ 4 8 fullDeckE).toOption.isSome = true ∧
    (construct 4 8 fullDeckE).openPiles.length = Int.toNat ⌊(4 : ℚ)⌋ := by
  constructor
  · exact (constructQ_spec 4 8 fullDeckE).1.mpr (by norm_num)
  · exact ((constructQ_spec 4 8 fullDeckE).2 (construct 4 8 fullDeckE) (by rfl)).2.1

/-- C7: `executeMove` for a cascade source whose pile is `ps ++ [e]`
removes exactly the top card `e` and appends it to the open or
foundation destination pile, while a cascade destination receives the
whole run from `cardIndex` onward, in order, the source keeping the
prefix; for an open source holding the sole card `e`, that card is
removed and appended to the destination. -/
theorem executeMove_spec (s : GameState) (srcPile destPile : PileRef)
    (ps : List Entry) (e : Entry) :
    (srcPile.type = "cascade" → jsGetPile s.cascade srcPile.index = ps ++ [e] →
      (destPile.type = "cascade" → srcPile.index ≠ destPile.index) →
      executeMove s srcPile destPile =
        (if destPile.type = "open" then
          { s with cascade := s.cascade.set srcPile.index ps,
                   openPiles := pushToPile s.openPiles destPile.index e }
         else if destPile.type = "cascade" then
          { s with cascade := (s.cascade.set srcPile.index
                     ((ps ++ [e]).take srcPile.cardIndex)).set destPile.index
                     (jsGetPile s.cascade destPile.index ++
                       (ps ++ [e]).drop srcPile.cardIndex) }
         else if destPile.type = "foundation" then
          { s with cascade := s.cascade.set srcPile.index ps,
                   foundation := pushToPile s.foundation destPile.index e }
         else s)) ∧
    (srcPile.type = "open" → jsGetPile s.openPiles srcPile.index = [e] →
      executeMove s srcPile destPile =
        (if destPile.type = "open" then
          { s with openPiles := pushToPile (s.openPiles.set srcPile.index []) destPile.index e }
         else if destPile.type = "cascade" then
          { s with openPiles := s.openPiles.set srcPile.index [],
                   cascade := pushToPile s.cascade destPile.index e }
         else if destPile.type = "foundation" then
          { s with openPiles := s.openPiles.set srcPile.index [],
                   foundation := pushToPile s.foundation destPile.index e }
         else s)) := by
  constructor
  · intro hc hpile hne
    rw [executeMove, if_pos hc]
    by_cases hdo : destPile.type = "open"
    · rw [if_pos hdo, if_pos hdo]
      rw [hpile, jsPop_concat]
    · rw [if_neg hdo, if_neg hdo]
      by_cases hdc : destPile.type = "cascade"
      · rw [if_pos hdc, if_pos hdc]
        have hXj : jsGetPile (s.cascade.set srcPile.index
            ((jsGetPile s.cascade srcPile.index).take srcPile.cardIndex)) destPile.index =
            jsGetPile s.cascade destPile.index :=
          jsGetPile_set_ne s.cascade srcPile.index destPile.index _ (hne hdc)
        rw [hpile] at hXj
        simp only [hpile, hXj]
      · rw [if_neg hdc, if_neg hdc]
        by_cases hdf : destPile.type = "foundation"
        · rw [if_pos hdf, if_pos hdf]
          rw [hpile, jsPop_concat]
        · rw [if_neg hdf, if_neg hdf]
  · intro ho hpile
    have hnc : ¬ srcPile.type = "cascade" := by rw [ho]; decide
    rw [executeMove, if_neg hnc, if_pos ho]
    have hpop : jsPop (jsGetPile s.openPiles srcPile.index) = (e, []) := by
      rw [hpile]
      show jsPop ([] ++ [e]) = (e, [])
      rw [jsPop_concat]
    by_cases hdo : destPile.type = "open"
    · rw [if_pos hdo, if_pos hdo, hpop]
    · rw [if_neg hdo, if_neg hdo]
      by_cases hdc : destPile.type = "cascade"
      · rw [if_pos hdc, if_pos hdc, hpop]
      · rw [if_neg hdc, if_neg hdc]
        by_cases hdf : destPile.type = "foundation"
        · rw [if_pos hdf, if_pos hdf, hpop]
        · rw [if_neg hdf, if_neg hdf]

/-- State for the C7 witness: a two-card cascade pile 0, empty open
pile, and a single-card open pile for the open-source conjunct. -/
def stateC7 : GameState :=
  ⟨[[], [], [], []], [[], [some ⟨7, Suit.clubs⟩]],
   [[some ⟨9, Suit.hearts⟩, some ⟨5, Suit.spades⟩], []]⟩

theorem executeMove_spec_witness :
    executeMove stateC7 ⟨"cascade", 0, 1⟩ ⟨"open", 0, 0⟩ =
      { stateC7 with cascade := stateC7.cascade.set 0 [some ⟨9, Suit.hearts⟩],
                     openPiles := pushToPile stateC7.openPiles 0 (some ⟨5, Suit.spades⟩) } ∧
    executeMove stateC7 ⟨"open", 1, 0⟩ ⟨"cascade", 1, 0⟩ =
      { stateC7 with openPiles := stateC7.openPiles.set 1 [],
                     cascade := pushToPile stateC7.cascade 1 (some ⟨7, Suit.clubs⟩) } := by
  constructor
  · have h := (executeMove_spec stateC7 ⟨"cascade", 0, 1⟩ ⟨"open", 0, 0⟩
      [some ⟨9, Suit.hearts⟩] (some ⟨5, Suit.spades⟩)).1 rfl rfl
      (fun hdc => absurd hdc (by decide))
    exact h
  · have h := (executeMove_spec stateC7 ⟨"open", 1, 0⟩ ⟨"cascade", 1, 0⟩
      [] (some ⟨7, Suit.clubs⟩)).2 rfl rfl
    exact h

/-- C8: `attemptAutoMove` mutates state only when it performs a move.
It returns `false` with every pile unchanged when no destination exists
(cascade source: no valid foundation and no free open pile; open source:
no valid foundation), and returns `true` exactly by executing the move
to the prescribed destination (cascade source: the valid foundation if
one exists, else the first available open pile; open source: a valid
foundation only). -/
theorem attemptAutoMove_spec (s : GameState) (srcPile : PileRef)
    (hf : s.foundation.length = 4) (hw : wellFormedSrc s srcPile) :
    ((attemptAutoMove s srcPile).2 = false → (attemptAutoMove s srcPile).1 = s) ∧
    ((attemptAutoMove s srcPile).2 = true →
      ∃ d : PileRef, (attemptAutoMove s srcPile).1 = executeMove s srcPile d ∧
        ((srcPile.type = "cascade" ∧ getValidFoundation s srcPile ≠ -1 ∧
            d.type = "foundation" ∧ (d.index : ℤ) = getValidFoundation s srcPile) ∨
         (srcPile.type = "cascade" ∧ getValidFoundation s srcPile = -1 ∧
            getFirstAvailableOpen s ≠ -1 ∧
            d.type = "open" ∧ (d.index : ℤ) = getFirstAvailableOpen s) ∨
         (srcPile.type = "open" ∧ getValidFoundation s srcPile ≠ -1 ∧
            d.type = "foundation" ∧ (d.index : ℤ) = getValidFoundation s srcPile))) ∧
    (srcPile.type = "cascade" → getValidFoundation s srcPile = -1 →
      getFirstAvailableOpen s = -1 → attemptAutoMove s srcPile = (s, false)) ∧
    (srcPile.type = "open" → getValidFoundation s srcPile = -1 →
      attemptAutoMove s srcPile = (s, false)) := by
  by_cases hc : srcPile.type = "cascade"
  · by_cases hg : getValidFoundation s srcPile = -1
    · by_cases ha : getFirstAvailableOpen s = -1
      · have hA : attemptAutoMove s srcPile = (s, false) := by
          rw [attemptAutoMove, if_pos hc, if_neg (by simpa using hg), if_neg (by simpa using ha)]
        rw [hA]
        exact ⟨fun _ => rfl, fun habs => Bool.noConfusion habs, fun _ _ _ => rfl,
          fun ho => absurd (hc.symm.trans ho) (by decide)⟩
      · have hA : attemptAutoMove s srcPile =
            (executeMove s srcPile ⟨"open", (getFirstAvailableOpen s).toNat, 0⟩, true) := by
          rw [attemptAutoMove, if_pos hc, if_neg (by simpa using hg), if_pos (by simpa using ha)]
        rw [hA]
        refine ⟨fun habs => Bool.noConfusion habs, ?_, fun _ _ haa => absurd haa ha,
          fun ho => absurd (hc.symm.trans ho) (by decide)⟩
        intro _
        refine ⟨⟨"open", (getFirstAvailableOpen s).toNat, 0⟩, rfl, Or.inr (Or.inl ?_)⟩
        refine ⟨hc, hg, ha, rfl, ?_⟩
        show ((getFirstAvailableOpen s).toNat : ℤ) = getFirstAvailableOpen s
        exact Int.toNat_of_nonneg (getFirstAvailableOpen_bound s ha).1
    · have hA : attemptAutoMove s srcPile =
          (executeMove s srcPile ⟨"foundation", (getValidFoundation s srcPile).toNat, 0⟩, true) := by
        rw [attemptAutoMove, if_pos hc, if_pos (by simpa using hg)]
      rw [hA]
      refine ⟨fun habs => Bool.noConfusion habs, ?_, fun _ hgg => absurd hgg hg,
        fun ho => absurd (hc.symm.trans ho) (by decide)⟩
      intro _
      refine ⟨⟨"foundation", (getValidFoundation s srcPile).toNat, 0⟩, rfl, Or.inl ?_⟩
      refine ⟨hc, hg, rfl, ?_⟩
      show ((getValidFoundation s srcPile).toNat : ℤ) = getValidFoundation s srcPile
      exact Int.toNat_of_nonneg (getValidFoundation_bound s srcPile hg).1
  · by_cases ho : srcPile.type = "open"
    · by_cases hg : getValidFoundation s srcPile = -1
      · have hA : attemptAutoMove s srcPile = (s, false) := by
          rw [attemptAutoMove, if_neg hc, if_pos ho, if_neg (by simpa using hg)]
        rw [hA]
        exact ⟨fun _ => rfl, fun habs => Bool.noConfusion habs, fun hcc => absurd hcc hc,
          fun _ _ => rfl⟩
      · have hA : attemptAutoMove s srcPile =
            (executeMove s srcPile ⟨"foundation", (getValidFoundation s srcPile).toNat, 0⟩, true) := by
          rw [attemptAutoMove, if_neg hc, if_pos ho, if_pos (by simpa using hg)]
        rw [hA]
        refine ⟨fun habs => Bool.noConfusion habs, ?_, fun hcc => absurd hcc hc,
          fun _ hgg => absurd hgg hg⟩
        intro _
        refine ⟨⟨"foundation", (getValidFoundation s srcPile).toNat, 0⟩, rfl,
          Or.inr (Or.inr ⟨ho, hg, rfl, ?_⟩)⟩
        show ((getValidFoundation s srcPile).toNat : ℤ) = getValidFoundation s srcPile
        exact Int.toNat_of_nonneg (getValidFoundation_bound s srcPile hg).1
    · have hA : attemptAutoMove s srcPile = (s, false) := by
        rw [attemptAutoMove, if_neg hc, if_neg ho]
      rw [hA]
      exact ⟨fun _ => rfl, fun habs => Bool.noConfusion habs, fun hcc => absurd hcc hc,
        fun hoo => absurd hoo ho⟩

/-- State for the C8 witness: a cascade pile holding a 9♣ (no valid
foundation), and a single full open pile (no free open pile), so the
auto-move fails and must leave the state unchanged. -/
def stateC8 : GameState :=
  ⟨[[], [], [], []], [[some ⟨7, Suit.hearts⟩]], [[some ⟨9, Suit.clubs⟩]]⟩

theorem attemptAutoMove_spec_witness :
    attemptAutoMove stateC8 ⟨"cascade", 0, 0⟩ = (stateC8, false) := by
  exact (attemptAutoMove_spec stateC8 ⟨"cascade", 0, 0⟩ (by decide)
    ⟨fun _ => ⟨by decide, by decide⟩, fun habs => by simp at habs⟩).2.2.1
    rfl (by decide) (by decide)

/-- C4 (amended): every reachable state — constructed from any
permutation of the deck, or reached by an `executeMove` accepted by
`isValidMove` whose referenced piles are in range and whose popped
source pile is non-empty, or by an `attemptAutoMove` whose referenced
source card exists — carries exactly the 52-card deck: the multiset
union of all piles equals the full deck and every rank-suit combination
occurs exactly once. -/
theorem reachable_deck_invariant (s : GameState) (h : Reachable s) :
    cardUnion s = (fullDeckE : Multiset Entry) ∧
    ∀ (v : ℕ) (st : Suit), 1 ≤ v → v ≤ 13 →
      (cardUnion s).count (some ⟨v, st⟩) = 1 := by
  have h1 := cardUnion_reachable s h
  refine ⟨h1, fun v st hv1 hv2 => ?_⟩
  rw [h1]
  exact count_fullDeckE v st hv1 hv2

theorem reachable_deck_invariant_witness :
    cardUnion (construct 4 8 fullDeckE) = (fullDeckE : Multiset Entry) ∧
    (cardUnion (construct 4 8 fullDeckE)).count (some ⟨1, Suit.spades⟩) = 1 := by
  have h := reachable_deck_invariant (construct 4 8 fullDeckE)
    (Reachable.init 4 8 fullDeckE (by norm_num) (by norm_num) (by norm_num) (by norm_num) rfl)
  exact ⟨h.1, h.2 1 Suit.spades (by norm_num) (by norm_num)⟩

/-- C4 counterexample: from a freshly constructed game, the move from
empty open pile 0 to empty open pile 1 is accepted by `isValidMove`
(see C10), and executing it pushes the popped `undefined` onto open
pile 1: after this `executeMove` of a valid move, the union of the
piles is no longer the 52-card deck — it has gained an `undefined`
entry. -/
theorem deck_invariant_counterexample :
    isValidMove (construct 4 8 fullDeckE) ⟨"open", 0, 0⟩ ⟨"open", 1, 0⟩ = true ∧
    jsGetPile (executeMove (construct 4 8 fullDeckE) ⟨"open", 0, 0⟩ ⟨"open", 1, 0⟩).openPiles 1 =
      [none] ∧
    cardUnion (executeMove (construct 4 8 fullDeckE) ⟨"open", 0, 0⟩ ⟨"open", 1, 0⟩) ≠
      (fullDeckE : Multiset Entry) := by
  refine ⟨by decide, by decide, ?_⟩
  intro heq
  have h1 : (cardUnion (executeMove (construct 4 8 fullDeckE) ⟨"open", 0, 0⟩
      ⟨"open", 1, 0⟩)).count (none : Entry) = 1 := by decide
  have h2 : ((fullDeckE : List Entry) : Multiset Entry).count (none : Entry) = 0 := by decide
  rw [heq, h2] at h1
  exact absurd h1 (by decide)
